import Mathlib

/-!
# Roughenough server core: a shallow embedding

This file embeds the request parsing, batching loop, response assembly and
configuration validation of the Roughenough Roughtime server
(`src/server.rs` and `src/config/mod.rs`) as executable Lean definitions,
and proves the specified properties about them.

Bytes are modelled as `Nat`, byte strings as `List Nat`, and socket
addresses as opaque `Nat` identifiers.  Machine integers that matter
(the 4-byte little-endian `INDX` encoding) are handled with explicit
`% 256` arithmetic.  External effects (the UDP socket, the poller) are
modelled as explicit input streams, and the cryptographic collaborators
(`compute_root`, `make_srep`, `get_paths`) that live outside the two
source files are abstract function parameters, so every theorem holds
for every implementation of them.
-/

namespace Roughenough

/-- Roughtime wire tags used by the server core (`Tag` enum of the crate;
the enum itself is outside the two provided source files). -/
inductive Tag where
  | CERT
  | DELE
  | INDX
  | MAXT
  | MIDP
  | MINT
  | NONC
  | PAD
  | PATH
  | PUBK
  | RADI
  | ROOT
  | SIG
  | SREP
deriving DecidableEq, Repr

/-- Modelled from the spec: tags are 4-byte ASCII identifiers on the wire
(`NONC`, `PAD\xff`, `SIG` NUL-padded, ...); `tag.rs` is not under `src/`. -/
def Tag.wire_value : Tag → List Nat
  | .CERT => [0x43, 0x45, 0x52, 0x54]
  | .DELE => [0x44, 0x45, 0x4C, 0x45]
  | .INDX => [0x49, 0x4E, 0x44, 0x58]
  | .MAXT => [0x4D, 0x41, 0x58, 0x54]
  | .MIDP => [0x4D, 0x49, 0x44, 0x50]
  | .MINT => [0x4D, 0x49, 0x4E, 0x54]
  | .NONC => [0x4E, 0x4F, 0x4E, 0x43]
  | .PAD  => [0x50, 0x41, 0x44, 0xFF]
  | .PATH => [0x50, 0x41, 0x54, 0x48]
  | .PUBK => [0x50, 0x55, 0x42, 0x4B]
  | .RADI => [0x52, 0x41, 0x44, 0x49]
  | .ROOT => [0x52, 0x4F, 0x4F, 0x54]
  | .SIG  => [0x53, 0x49, 0x47, 0x00]
  | .SREP => [0x53, 0x52, 0x45, 0x50]

/-- The numeric (little-endian u32) value of a tag's wire encoding; wire
messages order their tags strictly ascending in this value. -/
def Tag.wire_u32 (t : Tag) : Nat :=
  match t.wire_value with
  | [a, b, c, d] => a + 256 * b + 65536 * c + 16777216 * d
  | _ => 0

/-- The error kinds of the crate's `Error` enum that the two source files
produce. -/
inductive Error where
  | RequestTooShort
  | InvalidRequest
  | InvalidConfiguration (addr : String)
deriving DecidableEq, Repr

/-- Modelled from the spec: `MIN_REQUEST_LENGTH` (defined in the crate
root, not under `src/`) is 1024 bytes. -/
def MIN_REQUEST_LENGTH : Nat := 1024

/-- `Server::nonce_from_request` from `src/server.rs`: checks the length,
the leading tag count, and the two tag identifiers, and on success returns
the 64 bytes at offsets `0x10..0x50` of the receive buffer. -/
def nonce_from_request (buf : List Nat) (num_bytes : Nat) : Except Error (List Nat) :=
  if num_bytes < MIN_REQUEST_LENGTH then
    .error .RequestTooShort
  else
    let tag_count := buf.take 4
    let expected_nonc := (buf.drop 8).take 4
    let expected_pad := (buf.drop 12).take 4
    if tag_count = [0x02, 0x00, 0x00, 0x00] ∧
        expected_nonc = Tag.NONC.wire_value ∧
        expected_pad = Tag.PAD.wire_value then
      .ok ((buf.drop 0x10).take (0x50 - 0x10))
    else
      .error .InvalidRequest

/-- An `RtMessage` as the server core uses it: the ordered list of
(tag, value) fields.  `message.rs` is not under `src/`; modelled from the
spec's wire codec section: a message is a tag-sorted mapping from tags to
opaque byte strings, built by appending fields in ascending tag order. -/
structure RtMessage where
  fields : List (Tag × List Nat)
deriving DecidableEq, Repr

/-- `RtMessage::new(n)` only reserves capacity; the fresh message is empty. -/
def RtMessage.new (_num_fields : Nat) : RtMessage := ⟨[]⟩

/-- Modelled from the spec: `add_field` appends a field (callers append in
strictly ascending wire-tag order). -/
def RtMessage.add_field (m : RtMessage) (t : Tag) (v : List Nat) : RtMessage :=
  ⟨m.fields ++ [(t, v)]⟩

/-- Modelled from the spec: `get_field(tag)` returns the value stored for
`tag`, if any. -/
def RtMessage.get_field (m : RtMessage) (t : Tag) : Option (List Nat) :=
  (m.fields.find? (fun p => p.1 == t)).map (fun p => p.2)

/-- `write_u32::<LittleEndian>`: the 4-byte little-endian encoding of a
32-bit value. -/
def u32_le (n : Nat) : List Nat :=
  [n % 256, n / 256 % 256, n / 65536 % 256, n / 16777216 % 256]

/-- `Server::make_response` from `src/server.rs`: a 5-field message holding
the SREP signature, the Merkle path, the SREP bytes, the certificate and
the little-endian index, added in that order.  The source `unwrap`s the
`SIG`/`SREP` lookups; the embedding takes the found value (`getD`),
and the theorems about responses supply the fields explicitly. -/
def make_response (srep : RtMessage) (cert_bytes : List Nat) (path : List Nat)
    (idx : Nat) : RtMessage :=
  let index := u32_le idx
  let sig_bytes := (srep.get_field .SIG).getD []
  let srep_bytes := (srep.get_field .SREP).getD []
  (((((RtMessage.new 5).add_field .SIG sig_bytes).add_field
      .PATH path).add_field
      .SREP srep_bytes).add_field
      .CERT cert_bytes).add_field
      .INDX index

/-- The Merkle engine's observable leaf state.  `merkle.rs` is not under
`src/`; modelled from the spec: `push_leaf(nonce_bytes)` appends a leaf
and `reset()` clears the leaves.  `compute_root` and `get_paths` are kept
as abstract function parameters of the loop model. -/
structure MerkleTree where
  values : List (List Nat)
deriving DecidableEq, Repr

/-- `MerkleTree::new()`: the empty tree. -/
def MerkleTree.new : MerkleTree := ⟨[]⟩

/-- Modelled from the spec: `push_leaf` appends a leaf. -/
def MerkleTree.push_leaf (t : MerkleTree) (data : List Nat) : MerkleTree :=
  ⟨t.values ++ [data]⟩

/-- Modelled from the spec: `reset` clears the leaves. -/
def MerkleTree.reset (_t : MerkleTree) : MerkleTree := ⟨[]⟩

/-- The mutable server state that `process_events` touches: the Merkle
engine, the queued `(nonce, source address)` pairs, and the two counters
(`src/server.rs`, fields of `Server`). -/
structure ServerState where
  merkle : MerkleTree
  requests : List (List Nat × Nat)
  response_counter : Nat
  num_bad_requests : Nat
deriving DecidableEq, Repr

/-- One outcome of a nonblocking `recv_from` call: a datagram with its
source address, `ErrorKind::WouldBlock`, or any other I/O error. -/
inductive RecvResult where
  | datagram (buf : List Nat) (src : Nat)
  | wouldBlock
  | otherErr
deriving DecidableEq, Repr

/-- Whether a receive outcome delivered a datagram. -/
def RecvResult.isDatagram : RecvResult → Bool
  | .datagram _ _ => true
  | _ => false

/-- The body of the `Ok((num_bytes, src_addr))` arm of the draining loop
(`src/server.rs`): a valid request is queued and its nonce pushed as a
leaf; an invalid one only bumps `num_bad_requests`. -/
def handle_datagram (st : ServerState) (buf : List Nat) (src : Nat) : ServerState :=
  match nonce_from_request buf buf.length with
  | .ok nonce =>
      { st with
        requests := st.requests ++ [(nonce, src)]
        merkle := st.merkle.push_leaf nonce }
  | .error _ =>
      { st with num_bad_requests := st.num_bad_requests + 1 }

/-- The `for i in 0..batch_size` draining loop of `process_events`: read up
to `n` datagrams from the input stream; stop early on `WouldBlock`
(setting `done`) or on any other receive error (leaving `done` false).
An exhausted stream behaves as `WouldBlock`.  Returns the new state, the
unread remainder of the stream, and the `done` flag. -/
def drain : Nat → ServerState → List RecvResult → ServerState × List RecvResult × Bool
  | 0, st, inp => (st, inp, false)
  | _ + 1, st, [] => (st, [], true)
  | _ + 1, st, .wouldBlock :: rest => (st, rest, true)
  | _ + 1, st, .otherErr :: rest => (st, rest, false)
  | n + 1, st, .datagram buf src :: rest => drain n (handle_datagram st buf src) rest

/-- The fixed collaborators of one `process_events` call: the configured
batch size and certificate bytes, the Merkle root/path functions and the
online key's `make_srep` (all outside `src/`, kept abstract), and the
send-outcome oracle (`send_fails i` says whether the `send_to` for the
`i`-th response of a batch fails). -/
structure BatchContext where
  batch_size : Nat
  cert_bytes : List Nat
  compute_root : List (List Nat) → List Nat
  make_srep : Nat → List Nat → RtMessage
  get_paths : List (List Nat) → Nat → List Nat
  send_fails : Nat → Bool

/-- The response fan-out loop of `process_events`: for each queued request
(at batch position `i`, counting from `i0`) build the response and send
it.  The source calls `.expect("send_to failed")`, so a failed send
panics: nothing further is emitted and the panic flag is returned.
Returns the list of `(destination, response)` pairs actually sent. -/
def emit_loop (ctx : BatchContext) (leaves : List (List Nat)) (srep : RtMessage) :
    Nat → List (List Nat × Nat) → List (Nat × RtMessage) × Bool
  | _, [] => ([], false)
  | i, (_nonce, src) :: rest =>
    if ctx.send_fails i then ([], true)
    else
      let r := emit_loop ctx leaves srep (i + 1) rest
      ((src, make_response srep ctx.cert_bytes (ctx.get_paths leaves i) i) :: r.1, r.2)

/-- The outcome of one iteration of the `'process_batch` loop body after
the shutdown check. -/
inductive IterResult where
  | emptyBatch (st : ServerState) (rest : List RecvResult)
  | panicked (st : ServerState) (sent : List (Nat × RtMessage))
  | processed (st : ServerState) (sent : List (Nat × RtMessage))
      (rest : List RecvResult) (done : Bool)
deriving Repr

/-- One iteration of the `'process_batch` loop of `process_events`
(after `check_ctrlc`): drain the socket, break if no requests were
queued, otherwise compute the root once, build the SREP once (at
timestamp `t`), fan out the responses, bump `response_counter` per sent
response, and reset the Merkle tree and the request queue. -/
def batch_iteration (ctx : BatchContext) (t : Nat) (st : ServerState)
    (inp : List RecvResult) : IterResult :=
  let d := drain ctx.batch_size st inp
  let st1 := d.1
  let rest := d.2.1
  let done := d.2.2
  if st1.requests.isEmpty then .emptyBatch st1 rest
  else
    let root := ctx.compute_root st1.merkle.values
    let srep := ctx.make_srep t root
    let e := emit_loop ctx st1.merkle.values srep 0 st1.requests
    let st2 := { st1 with response_counter := st1.response_counter + e.1.length }
    if e.2 then .panicked st2 e.1
    else .processed { st2 with merkle := st2.merkle.reset, requests := [] } e.1 rest done

/-- How one `process_events` call's `MESSAGE` handling ends: `shutdown`
(`check_ctrlc` fired, `process_events` returns `true`), `normal` (the
batch loop broke; `process_events` returns `false`), or `panic` (a
`send_to` `expect` fired).  Carries the final state, everything sent, and
the unread input. -/
inductive LoopResult where
  | shutdown (st : ServerState) (sent : List (Nat × RtMessage)) (unread : List RecvResult)
  | normal (st : ServerState) (sent : List (Nat × RtMessage)) (unread : List RecvResult)
  | panic (st : ServerState) (sent : List (Nat × RtMessage))
deriving Repr

/-- The `'process_batch` loop of `process_events`: at the top of every
iteration (`check_ctrlc`) the shutdown flag is read — poll number `k`
reads `flag k` — and if it is cleared the call returns `shutdown` at
once; otherwise one batch iteration runs at timestamp `times k`, the loop
breaks on an empty batch or a finished drain, and continues otherwise.
`fuel` bounds the number of iterations; every caller supplies more fuel
than the input length, which is enough because each continuing iteration
consumes input. -/
def process_batch_loop (ctx : BatchContext) (flag : Nat → Bool) (times : Nat → Nat) :
    Nat → Nat → ServerState → List RecvResult → LoopResult
  | 0, _, st, inp => .normal st [] inp
  | fuel + 1, k, st, inp =>
    if flag k then
      match batch_iteration ctx (times k) st inp with
      | .emptyBatch st1 rest => .normal st1 [] rest
      | .panicked st2 sent => .panic st2 sent
      | .processed st3 sent rest done =>
        if done then .normal st3 sent rest
        else
          match process_batch_loop ctx flag times fuel (k + 1) st3 rest with
          | .shutdown st' s' u => .shutdown st' (sent ++ s') u
          | .normal st' s' u => .normal st' (sent ++ s') u
          | .panic st' s' => .panic st' (sent ++ s')
    else .shutdown st [] inp

/-- One `process_events` call's handling of a readable socket, with
enough fuel for the given input. -/
def run_server (ctx : BatchContext) (flag : Nat → Bool) (times : Nat → Nat)
    (st : ServerState) (inp : List RecvResult) : LoopResult :=
  process_batch_loop ctx flag times (inp.length + 1) 0 st inp

/-- The surrounding server loop: `process_events` "should be called
repeatedly in a loop" (its doc comment); each call handles one socket
readiness on the input left over by the previous call, until the input is
exhausted (modelling that the poller reports readiness while data
remains), the flag stops it, or a send panic kills the process. -/
def run_stream (ctx : BatchContext) (times : Nat → Nat) :
    Nat → ServerState → List RecvResult → ServerState × List (Nat × RtMessage)
  | 0, st, _ => (st, [])
  | fuel + 1, st, inp =>
    match run_server ctx (fun _ => true) times st inp with
    | .normal st' sent rest =>
      if rest.length < inp.length then
        let r := run_stream ctx times fuel st' rest
        (r.1, sent ++ r.2)
      else (st', sent)
    | .shutdown st' sent _ => (st', sent)
    | .panic st' sent => (st', sent)

/-- The valid requests delivered by a prefix of the input stream, in
order, as `(nonce, source)` pairs. -/
def goodReqs : List RecvResult → List (List Nat × Nat)
  | [] => []
  | .datagram buf src :: rest =>
    match nonce_from_request buf buf.length with
    | .ok nonce => (nonce, src) :: goodReqs rest
    | .error _ => goodReqs rest
  | .wouldBlock :: rest => goodReqs rest
  | .otherErr :: rest => goodReqs rest

/-- The number of rejected datagrams in a prefix of the input stream. -/
def badCount : List RecvResult → Nat
  | [] => 0
  | .datagram buf _ :: rest =>
    (match nonce_from_request buf buf.length with
     | .ok _ => 0
     | .error _ => 1) + badCount rest
  | .wouldBlock :: rest => badCount rest
  | .otherErr :: rest => badCount rest

/-- Modelled from the spec: the seed-protection enum
`{plaintext, kms(id)}` (`key::KmsProtection` is not under `src/`). -/
inductive KmsProtection where
  | Plaintext
  | Kms (id : String)
deriving DecidableEq, Repr

/-- The configuration surface that `is_valid_config` consults
(`ServerConfig` trait of `src/config/mod.rs`, as a concrete record).
The seed is a byte string; port and batch size are the numeric values of
the `u16`/`u8` fields. -/
structure ServerConfig where
  interface : String
  port : Nat
  seed : List Nat
  batch_size : Nat
  kms_protection : KmsProtection

/-- `ServerConfig::udp_socket_addr` formats `"interface:port"` and parses
it with the standard library's `SocketAddr` parser; that parser is
external, so it is the abstract `parseOk` argument and the embedding
records only whether it succeeds. -/
def udp_socket_addr_ok (parseOk : String → Bool) (cfg : ServerConfig) : Bool :=
  parseOk (cfg.interface ++ ":" ++ toString cfg.port)

/-- `is_valid_config` from `src/config/mod.rs`: the `is_valid`
accumulator is cleared by each failed check, and the socket-address check
runs only if everything else passed. -/
def is_valid_config (parseOk : String → Bool) (cfg : ServerConfig) : Bool :=
  let v0 := true
  let v1 := if cfg.port = 0 then false else v0
  let v2 := if cfg.interface.isEmpty then false else v1
  let v3 := if cfg.seed.isEmpty then false else v2
  let v4 := if cfg.kms_protection = KmsProtection.Plaintext ∧ cfg.seed.length ≠ 32 then
      false else v3
  let v5 := if cfg.kms_protection ≠ KmsProtection.Plaintext ∧ cfg.seed.length ≤ 32 then
      false else v4
  let v6 := if cfg.batch_size < 1 ∨ 64 < cfg.batch_size then false else v5
  if v6 then (if udp_socket_addr_ok parseOk cfg then v6 else false) else v6

/-! ## Helper lemmas about responses -/

/-- The fields of `make_response`, explicitly. -/
theorem make_response_fields_eq (srep : RtMessage) (cert path : List Nat) (idx : Nat) :
    (make_response srep cert path idx).fields =
      [(Tag.SIG, (srep.get_field Tag.SIG).getD []),
       (Tag.PATH, path),
       (Tag.SREP, (srep.get_field Tag.SREP).getD []),
       (Tag.CERT, cert),
       (Tag.INDX, u32_le idx)] := rfl

/-- Looking up `SIG` in a response finds the SREP signature. -/
theorem make_response_get_SIG (srep : RtMessage) (cert path : List Nat) (idx : Nat) :
    (make_response srep cert path idx).get_field Tag.SIG =
      some ((srep.get_field Tag.SIG).getD []) := rfl

/-- Looking up `SREP` in a response finds the signed SREP bytes. -/
theorem make_response_get_SREP (srep : RtMessage) (cert path : List Nat) (idx : Nat) :
    (make_response srep cert path idx).get_field Tag.SREP =
      some ((srep.get_field Tag.SREP).getD []) := rfl

/-- Looking up `CERT` in a response finds the certificate bytes. -/
theorem make_response_get_CERT (srep : RtMessage) (cert path : List Nat) (idx : Nat) :
    (make_response srep cert path idx).get_field Tag.CERT = some cert := rfl

/-- Looking up `PATH` in a response finds the Merkle path. -/
theorem make_response_get_PATH (srep : RtMessage) (cert path : List Nat) (idx : Nat) :
    (make_response srep cert path idx).get_field Tag.PATH = some path := rfl

/-- Looking up `INDX` in a response finds the little-endian index. -/
theorem make_response_get_INDX (srep : RtMessage) (cert path : List Nat) (idx : Nat) :
    (make_response srep cert path idx).get_field Tag.INDX = some (u32_le idx) := rfl

/-! ## Concrete test vectors (used by the witnesses) -/

/-- A well-formed 1024-byte request: tag count 2, value-area offset 64,
tags `NONC` then `PAD\xff`, a nonce of 64 `0x41` bytes, 944 padding
bytes. -/
def validReq : List Nat :=
  [0x02, 0x00, 0x00, 0x00] ++ [0x40, 0x00, 0x00, 0x00] ++
    Tag.NONC.wire_value ++ Tag.PAD.wire_value ++
    List.replicate 64 0x41 ++ List.replicate 944 0x00

/-- A second well-formed request, with a nonce of 64 `0x42` bytes. -/
def validReq2 : List Nat :=
  [0x02, 0x00, 0x00, 0x00] ++ [0x40, 0x00, 0x00, 0x00] ++
    Tag.NONC.wire_value ++ Tag.PAD.wire_value ++
    List.replicate 64 0x42 ++ List.replicate 944 0x00

/-- The server state at the start of a `process_events` call. -/
def st0 : ServerState := ⟨MerkleTree.new, [], 0, 0⟩

/-- A concrete context whose sends all succeed. -/
def ctx_nofail : BatchContext :=
  ⟨2, [0x09], fun _ => [0x07], fun _ _ => RtMessage.new 0, fun _ i => [i], fun _ => false⟩

/-- A concrete context with batch size 1, all sends succeeding. -/
def ctx_bs1 : BatchContext :=
  ⟨1, [0x09], fun _ => [0x07], fun _ _ => RtMessage.new 0, fun _ i => [i], fun _ => false⟩

/-- A concrete context in which the very first `send_to` of a batch
fails. -/
def ctx_failfirst : BatchContext :=
  ⟨2, [0x09], fun _ => [0x07], fun _ _ => RtMessage.new 0, fun _ i => [i], fun i => i == 0⟩

/-! ## C2: request validation -/

/-- C2: a datagram of length `L` is accepted by `nonce_from_request`,
yielding the 64-byte nonce at offsets `0x10..0x50`, if and only if
`L ≥ MIN_REQUEST_LENGTH`, the first four bytes decode to tag count 2,
bytes `8..12` are the wire encoding of `NONC` and bytes `12..16` the wire
encoding of `PAD\xff`; a short datagram is `RequestTooShort` and any
other failure is `InvalidRequest`. -/
theorem nonce_from_request_correct (buf : List Nat) (L : Nat) (hL : L ≤ buf.length) :
    ((nonce_from_request buf L).isOk = true ↔
      (MIN_REQUEST_LENGTH ≤ L ∧ buf.take 4 = [0x02, 0x00, 0x00, 0x00] ∧
        (buf.drop 8).take 4 = Tag.NONC.wire_value ∧
        (buf.drop 12).take 4 = Tag.PAD.wire_value)) ∧
    (∀ nonce, nonce_from_request buf L = .ok nonce →
      nonce = (buf.drop 0x10).take 64 ∧ nonce.length = 64) ∧
    (L < MIN_REQUEST_LENGTH → nonce_from_request buf L = .error .RequestTooShort) ∧
    (MIN_REQUEST_LENGTH ≤ L →
      ¬(buf.take 4 = [0x02, 0x00, 0x00, 0x00] ∧
        (buf.drop 8).take 4 = Tag.NONC.wire_value ∧
        (buf.drop 12).take 4 = Tag.PAD.wire_value) →
      nonce_from_request buf L = .error .InvalidRequest) := by
  by_cases h1 : L < MIN_REQUEST_LENGTH
  · refine ⟨?_, ?_, ?_, ?_⟩
    · simp only [nonce_from_request, if_pos h1]
      constructor
      · intro h; cases h
      · intro h; exact absurd h.1 (Nat.not_le.mpr h1)
    · intro nonce h
      simp only [nonce_from_request, if_pos h1] at h
      cases h
    · intro _
      simp only [nonce_from_request, if_pos h1]
    · intro h _; exact absurd h (Nat.not_le.mpr h1)
  · by_cases h2 : buf.take 4 = [0x02, 0x00, 0x00, 0x00] ∧
        (buf.drop 8).take 4 = Tag.NONC.wire_value ∧
        (buf.drop 12).take 4 = Tag.PAD.wire_value
    · refine ⟨?_, ?_, ?_, ?_⟩
      · simp only [nonce_from_request, if_neg h1, if_pos h2]
        constructor
        · intro _; exact ⟨by omega, h2⟩
        · intro _; rfl
      · intro nonce h
        simp only [nonce_from_request, if_neg h1, if_pos h2] at h
        cases h
        constructor
        · rfl
        · have hm : MIN_REQUEST_LENGTH = 1024 := rfl
          simp only [List.length_take, List.length_drop]
          omega
      · intro h; exact absurd h h1
      · intro _ hn; exact absurd h2 hn
    · refine ⟨?_, ?_, ?_, ?_⟩
      · simp only [nonce_from_request, if_neg h1, if_neg h2]
        constructor
        · intro h; cases h
        · intro h; exact absurd h.2 h2
      · intro nonce h
        simp only [nonce_from_request, if_neg h1, if_neg h2] at h
        cases h
      · intro h; exact absurd h h1
      · intro _ _
        simp only [nonce_from_request, if_neg h1, if_neg h2]

/-- C2 witness: the test vector `validReq` satisfies the length
hypothesis, and the theorem's conclusion holds for it. -/
theorem nonce_from_request_correct_witness :
    1024 ≤ validReq.length ∧
    (((nonce_from_request validReq 1024).isOk = true ↔
      (MIN_REQUEST_LENGTH ≤ 1024 ∧ validReq.take 4 = [0x02, 0x00, 0x00, 0x00] ∧
        (validReq.drop 8).take 4 = Tag.NONC.wire_value ∧
        (validReq.drop 12).take 4 = Tag.PAD.wire_value)) ∧
    (∀ nonce, nonce_from_request validReq 1024 = .ok nonce →
      nonce = (validReq.drop 0x10).take 64 ∧ nonce.length = 64) ∧
    (1024 < MIN_REQUEST_LENGTH → nonce_from_request validReq 1024 = .error .RequestTooShort) ∧
    (MIN_REQUEST_LENGTH ≤ 1024 →
      ¬(validReq.take 4 = [0x02, 0x00, 0x00, 0x00] ∧
        (validReq.drop 8).take 4 = Tag.NONC.wire_value ∧
        (validReq.drop 12).take 4 = Tag.PAD.wire_value) →
      nonce_from_request validReq 1024 = .error .InvalidRequest)) := by
  have hlen : (1024 : Nat) ≤ validReq.length := by
    simp only [validReq, Tag.wire_value, List.length_append, List.length_replicate,
      List.length_cons, List.length_nil]
    omega
  exact ⟨hlen, nonce_from_request_correct validReq 1024 hlen⟩

/-! ## C5: response assembly -/

/-- C5: `make_response` builds a 5-tag message whose fields are, in order,
`SIG` (the SREP signature), `PATH`, `SREP` (the signed bytes), `CERT` and
`INDX` (the 4-byte little-endian batch position), and that order is
strictly ascending in the tags' little-endian wire values, i.e. wire tag
order. -/
theorem make_response_five_tags_ordered (srep : RtMessage) (cert path : List Nat)
    (idx : Nat) (sig sb : List Nat)
    (h1 : srep.get_field Tag.SIG = some sig) (h2 : srep.get_field Tag.SREP = some sb) :
    (make_response srep cert path idx).fields =
      [(Tag.SIG, sig), (Tag.PATH, path), (Tag.SREP, sb), (Tag.CERT, cert),
       (Tag.INDX, u32_le idx)] ∧
    (make_response srep cert path idx).fields.length = 5 ∧
    (u32_le idx).length = 4 ∧
    ((make_response srep cert path idx).fields.map Prod.fst).Chain'
      (fun a b => a.wire_u32 < b.wire_u32) := by
  have hf := make_response_fields_eq srep cert path idx
  rw [h1, h2] at hf
  simp only [Option.getD_some] at hf
  refine ⟨hf, by rw [hf]; rfl, rfl, ?_⟩
  rw [hf]
  simp only [List.map_cons, List.map_nil, List.chain'_cons, List.chain'_singleton, and_true]
  refine ⟨?_, ?_, ?_, ?_⟩ <;> decide

/-- An SREP message as the online key returns it: `SIG` then `SREP`. -/
def srep0 : RtMessage :=
  ((RtMessage.new 2).add_field .SIG [0x01, 0x02]).add_field .SREP [0x03]

/-- C5 witness: the concrete SREP message `srep0` has the `SIG` and
`SREP` fields the theorem asks for, and the conclusion holds for it. -/
theorem make_response_five_tags_ordered_witness :
    (srep0.get_field Tag.SIG = some [0x01, 0x02] ∧
     srep0.get_field Tag.SREP = some [0x03]) ∧
    ((make_response srep0 [0x09] [0x04, 0x05] 1).fields =
      [(Tag.SIG, [0x01, 0x02]), (Tag.PATH, [0x04, 0x05]), (Tag.SREP, [0x03]),
       (Tag.CERT, [0x09]), (Tag.INDX, u32_le 1)] ∧
    (make_response srep0 [0x09] [0x04, 0x05] 1).fields.length = 5 ∧
    (u32_le 1).length = 4 ∧
    ((make_response srep0 [0x09] [0x04, 0x05] 1).fields.map Prod.fst).Chain'
      (fun a b => a.wire_u32 < b.wire_u32)) :=
  ⟨⟨rfl, rfl⟩,
   make_response_five_tags_ordered srep0 [0x09] [0x04, 0x05] 1 [0x01, 0x02] [0x03] rfl rfl⟩

/-! ## C9: configuration validation -/

/-- A cleared-on-failure validity accumulator step, as a Boolean. -/
theorem ite_false_and (c : Prop) [Decidable c] (b : Bool) :
    (if c then false else b) = (!(decide c) && b) := by
  by_cases h : c <;> simp [h]

/-- The final shape of `is_valid_config`: run the address check only when
everything else passed. -/
theorem ite_nest_and (a b : Bool) :
    (if a then (if b then a else false) else a) = (a && b) := by
  cases a <;> cases b <;> rfl

/-- C9: `is_valid_config` returns `true` iff the port is nonzero, the
interface and seed are nonempty, a plaintext seed is exactly 32 bytes, a
KMS-protected seed is longer than 32 bytes, the batch size lies in
`[1, 64]`, and `interface:port` parses as a socket address. -/
theorem is_valid_config_iff (parseOk : String → Bool) (cfg : ServerConfig) :
    is_valid_config parseOk cfg = true ↔
      (cfg.port ≠ 0 ∧ cfg.interface.isEmpty = false ∧ cfg.seed.isEmpty = false ∧
       (cfg.kms_protection = KmsProtection.Plaintext → cfg.seed.length = 32) ∧
       (cfg.kms_protection ≠ KmsProtection.Plaintext → 32 < cfg.seed.length) ∧
       1 ≤ cfg.batch_size ∧ cfg.batch_size ≤ 64 ∧
       udp_socket_addr_ok parseOk cfg = true) := by
  simp only [is_valid_config, ite_false_and]
  rw [ite_nest_and (b := udp_socket_addr_ok parseOk cfg)]
  simp only [Bool.and_eq_true, Bool.not_eq_true', decide_eq_false_iff_not, Bool.and_true]
  constructor
  · rintro ⟨⟨h6, h5, h4, h3, h2, h1⟩, hu⟩
    refine ⟨h1, by simpa using h2, by simpa using h3, ?_, ?_, by omega, by omega, hu⟩
    · intro hk; by_contra hne; exact h4 ⟨hk, hne⟩
    · intro hk; by_contra hle; exact h5 ⟨hk, by omega⟩
  · rintro ⟨h1, h2, h3, h4, h5, h6, h7, hu⟩
    refine ⟨⟨by omega, ?_, ?_, by simpa using h3, by simpa using h2, h1⟩, hu⟩
    · rintro ⟨hkne, hle⟩; exact absurd (h5 hkne) (by omega)
    · rintro ⟨hk, hne⟩; exact hne (h4 hk)

/-! ## C10: rejected datagrams are counted and change nothing else -/

/-- C10: handling a rejected datagram increments `num_bad_requests` by
exactly one and leaves the request queue, the Merkle leaves and
`response_counter` unchanged. -/
theorem rejected_datagram_frame (st : ServerState) (buf : List Nat) (src : Nat)
    (h : (nonce_from_request buf buf.length).isOk = false) :
    (handle_datagram st buf src).requests = st.requests ∧
    (handle_datagram st buf src).merkle = st.merkle ∧
    (handle_datagram st buf src).response_counter = st.response_counter ∧
    (handle_datagram st buf src).num_bad_requests = st.num_bad_requests + 1 := by
  cases hres : nonce_from_request buf buf.length with
  | ok nonce => rw [hres] at h; cases h
  | error e => simp [handle_datagram, hres]

/-- C10 witness: the empty datagram is rejected, and handling it from the
initial state only bumps the bad-request counter. -/
theorem rejected_datagram_frame_witness :
    ((nonce_from_request ([] : List Nat) (List.length ([] : List Nat))).isOk = false) ∧
    ((handle_datagram st0 [] 3).requests = st0.requests ∧
     (handle_datagram st0 [] 3).merkle = st0.merkle ∧
     (handle_datagram st0 [] 3).response_counter = st0.response_counter ∧
     (handle_datagram st0 [] 3).num_bad_requests = st0.num_bad_requests + 1) :=
  ⟨rfl, rejected_datagram_frame st0 [] 3 rfl⟩

/-! ## C4: `send_to` failure is fatal, not hardened -/

set_option maxRecDepth 40000 in
/-- C4 counterexample: in a batch of two queued requests where only the
first client's `send_to` fails, the fan-out emits nothing at all — the
second client's response is not emitted — and the batch iteration ends in
a panic (`expect("send_to failed")`), refuting the claim that the server
logs, drops the failed response and still serves the other clients. -/
theorem send_fail_spares_no_others_cex :
    emit_loop ctx_failfirst [[0x01], [0x02]] (RtMessage.new 0) 0
        [([0x01], 11), ([0x02], 22)] = ([], true) ∧
    batch_iteration ctx_failfirst 0 st0
        [RecvResult.datagram validReq 5, RecvResult.datagram validReq2 6] =
      .panicked
        ⟨⟨[List.replicate 64 0x41, List.replicate 64 0x42]⟩,
         [(List.replicate 64 0x41, 5), (List.replicate 64 0x42, 6)], 0, 0⟩ [] :=
  ⟨rfl, rfl⟩

/-- C4 amended: when `send_to` fails for the request at batch position
`i0`, the `expect` panics — that response is dropped, no later response
of the batch is emitted, and a panicking iteration aborts the whole
`process_events` loop (earlier responses of the batch were already on the
wire). -/
theorem send_fail_is_fatal (ctx : BatchContext) (leaves : List (List Nat))
    (srep : RtMessage) (i0 : Nat) (nonce : List Nat) (src : Nat)
    (rest : List (List Nat × Nat)) (h : ctx.send_fails i0 = true) :
    emit_loop ctx leaves srep i0 ((nonce, src) :: rest) = ([], true) ∧
    (∀ st inp st2 sent fuel k (flag : Nat → Bool) (times : Nat → Nat),
      flag k = true → batch_iteration ctx (times k) st inp = .panicked st2 sent →
      process_batch_loop ctx flag times (fuel + 1) k st inp = .panic st2 sent) := by
  constructor
  · simp [emit_loop, h]
  · intro st inp st2 sent fuel k flag times hflag hiter
    simp [process_batch_loop, hflag, hiter]

/-- C4 witness: in the concrete failing-first-send context, the first
send of a batch does fail, and the fatal behavior follows. -/
theorem send_fail_is_fatal_witness :
    ctx_failfirst.send_fails 0 = true ∧
    (emit_loop ctx_failfirst [] (RtMessage.new 0) 0 [([0x03], 7)] = ([], true) ∧
    (∀ st inp st2 sent fuel k (flag : Nat → Bool) (times : Nat → Nat),
      flag k = true →
      batch_iteration ctx_failfirst (times k) st inp = .panicked st2 sent →
      process_batch_loop ctx_failfirst flag times (fuel + 1) k st inp = .panic st2 sent)) :=
  ⟨rfl, send_fail_is_fatal ctx_failfirst [] (RtMessage.new 0) 0 [0x03] 7 [] rfl⟩

/-! ## Helper lemmas about the draining loop -/

/-- `goodReqs` distributes over append. -/
theorem goodReqs_append (a b : List RecvResult) :
    goodReqs (a ++ b) = goodReqs a ++ goodReqs b := by
  induction a with
  | nil => simp [goodReqs]
  | cons r rest ih =>
    cases r with
    | datagram buf src =>
      cases hres : nonce_from_request buf buf.length with
      | ok nonce => simp [goodReqs, hres, ih]
      | error e => simp [goodReqs, hres, ih]
    | wouldBlock => simp [goodReqs, ih]
    | otherErr => simp [goodReqs, ih]

/-- `badCount` distributes over append. -/
theorem badCount_append (a b : List RecvResult) :
    badCount (a ++ b) = badCount a + badCount b := by
  induction a with
  | nil => simp [badCount]
  | cons r rest ih =>
    cases r with
    | datagram buf src =>
      cases hres : nonce_from_request buf buf.length with
      | ok nonce => simp [badCount, hres, ih]
      | error e => simp [badCount, hres, ih, Nat.add_assoc]
    | wouldBlock => simp [badCount, ih]
    | otherErr => simp [badCount, ih]

/-- Splitting a drain: the input is the consumed prefix followed by the
unread remainder; the request queue and the Merkle leaves both grow by
the prefix's valid requests (in the same order), `num_bad_requests` grows
by its rejected count, and `response_counter` is untouched.  A nonzero
drain on nonempty input always consumes something. -/
theorem drain_split (n : Nat) (st : ServerState) (inp : List RecvResult) :
    ∃ pre,
      inp = pre ++ (drain n st inp).2.1 ∧
      (drain n st inp).1.requests = st.requests ++ goodReqs pre ∧
      (drain n st inp).1.merkle.values = st.merkle.values ++ (goodReqs pre).map Prod.fst ∧
      (drain n st inp).1.num_bad_requests = st.num_bad_requests + badCount pre ∧
      (drain n st inp).1.response_counter = st.response_counter ∧
      (n ≠ 0 → inp ≠ [] → pre ≠ []) := by
  induction n generalizing st inp with
  | zero =>
    refine ⟨[], by simp [drain], by simp [drain, goodReqs], by simp [drain, goodReqs],
      by simp [drain, badCount], by simp [drain], fun h => absurd rfl h⟩
  | succ n ih =>
    cases inp with
    | nil =>
      refine ⟨[], by simp [drain], by simp [drain, goodReqs], by simp [drain, goodReqs],
        by simp [drain, badCount], by simp [drain], fun _ h => absurd rfl h⟩
    | cons r rest =>
      cases r with
      | wouldBlock =>
        refine ⟨[.wouldBlock], by simp [drain], by simp [drain, goodReqs],
          by simp [drain, goodReqs], by simp [drain, badCount], by simp [drain],
          fun _ _ => by simp⟩
      | otherErr =>
        refine ⟨[.otherErr], by simp [drain], by simp [drain, goodReqs],
          by simp [drain, goodReqs], by simp [drain, badCount], by simp [drain],
          fun _ _ => by simp⟩
      | datagram buf src =>
        obtain ⟨pre, hsplit, hreq, hmv, hbad, hrc, _⟩ := ih (handle_datagram st buf src) rest
        refine ⟨.datagram buf src :: pre, ?_, ?_, ?_, ?_, ?_, fun _ _ => by simp⟩
        · simpa [drain] using congrArg (List.cons (RecvResult.datagram buf src)) hsplit
        · show (drain n (handle_datagram st buf src) rest).1.requests = _
          rw [hreq]
          cases hres : nonce_from_request buf buf.length with
          | ok nonce => simp [handle_datagram, hres, goodReqs]
          | error e => simp [handle_datagram, hres, goodReqs]
        · show (drain n (handle_datagram st buf src) rest).1.merkle.values = _
          rw [hmv]
          cases hres : nonce_from_request buf buf.length with
          | ok nonce => simp [handle_datagram, hres, goodReqs, MerkleTree.push_leaf]
          | error e => simp [handle_datagram, hres, goodReqs]
        · show (drain n (handle_datagram st buf src) rest).1.num_bad_requests = _
          rw [hbad]
          cases hres : nonce_from_request buf buf.length with
          | ok nonce => simp [handle_datagram, hres, badCount]
          | error e => simp [handle_datagram, hres, badCount]; omega
        · show (drain n (handle_datagram st buf src) rest).1.response_counter = _
          rw [hrc]
          cases hres : nonce_from_request buf buf.length with
          | ok nonce => simp [handle_datagram, hres]
          | error e => simp [handle_datagram, hres]

/-! ## Helper lemmas about the fan-out loop -/

/-- When no send fails, the fan-out does not panic and sends one response
per queued request. -/
theorem emit_loop_no_fail (ctx : BatchContext) (leaves : List (List Nat))
    (srep : RtMessage) (hsf : ∀ i, ctx.send_fails i = false) :
    ∀ reqs i0, (emit_loop ctx leaves srep i0 reqs).2 = false ∧
      (emit_loop ctx leaves srep i0 reqs).1.length = reqs.length := by
  intro reqs
  induction reqs with
  | nil => intro i0; exact ⟨rfl, rfl⟩
  | cons hd tl ih =>
    intro i0
    obtain ⟨nonce, src⟩ := hd
    have h := hsf i0
    constructor
    · simp [emit_loop, h, (ih (i0 + 1)).1]
    · simp [emit_loop, h, (ih (i0 + 1)).2]

/-- A fan-out that did not panic sent one response per queued request. -/
theorem emit_loop_no_panic_length (ctx : BatchContext) (leaves : List (List Nat))
    (srep : RtMessage) :
    ∀ reqs i0, (emit_loop ctx leaves srep i0 reqs).2 = false →
      (emit_loop ctx leaves srep i0 reqs).1.length = reqs.length := by
  intro reqs
  induction reqs with
  | nil => intro i0 _; rfl
  | cons hd tl ih =>
    intro i0 hp
    obtain ⟨nonce, src⟩ := hd
    by_cases h : ctx.send_fails i0
    · simp [emit_loop, h] at hp
    · simp only [emit_loop, if_neg h] at hp ⊢
      simp [ih (i0 + 1) hp]

/-- The fan-out never sends more than once per queued request. -/
theorem emit_loop_length_le (ctx : BatchContext) (leaves : List (List Nat))
    (srep : RtMessage) :
    ∀ reqs i0, (emit_loop ctx leaves srep i0 reqs).1.length ≤ reqs.length := by
  intro reqs
  induction reqs with
  | nil => intro i0; exact Nat.le_refl 0
  | cons hd tl ih =>
    intro i0
    obtain ⟨nonce, src⟩ := hd
    by_cases h : ctx.send_fails i0
    · simp [emit_loop, h]
    · simp only [emit_loop, if_neg h, List.length_cons]
      exact Nat.succ_le_succ (ih (i0 + 1))

/-- The `j`-th response sent by the fan-out goes to the `j`-th queued
request's address and is `make_response` at batch position `i0 + j`. -/
theorem emit_loop_get (ctx : BatchContext) (leaves : List (List Nat)) (srep : RtMessage) :
    ∀ reqs i0 j (h : j < (emit_loop ctx leaves srep i0 reqs).1.length)
      (h' : j < reqs.length),
      (emit_loop ctx leaves srep i0 reqs).1.get ⟨j, h⟩ =
        ((reqs.get ⟨j, h'⟩).2,
         make_response srep ctx.cert_bytes (ctx.get_paths leaves (i0 + j)) (i0 + j)) := by
  intro reqs
  induction reqs with
  | nil => intro i0 j h h'; exact absurd h' (Nat.not_lt_zero j)
  | cons hd tl ih =>
    intro i0 j h h'
    obtain ⟨nonce, src⟩ := hd
    by_cases hf : ctx.send_fails i0 = true
    · simp [emit_loop, hf] at h
    · have hf' : ctx.send_fails i0 = false := by simpa using hf
      cases j with
      | zero => simp [emit_loop, hf']
      | succ j =>
        have hh : j < (emit_loop ctx leaves srep (i0 + 1) tl).1.length := by
          simpa [emit_loop, hf'] using h
        have hh' : j < tl.length := Nat.lt_of_succ_lt_succ h'
        have hstep := ih (i0 + 1) j hh hh'
        have harith : i0 + 1 + j = i0 + (j + 1) := by omega
        rw [harith] at hstep
        simp only [List.get_eq_getElem] at hstep ⊢
        simp only [emit_loop, hf', Bool.false_eq_true, if_false, List.getElem_cons_succ]
        exact hstep

/-- When the drain queued at least one request and no send fails, the
batch iteration processes the whole batch: it emits the fan-out's
responses, adds their number to `response_counter`, resets the Merkle
tree, clears the queue, and hands back the drain's remainder and `done`
flag. -/
theorem batch_iteration_processed (ctx : BatchContext) (t : Nat) (st : ServerState)
    (inp : List RecvResult)
    (hne : ((drain ctx.batch_size st inp).1.requests).isEmpty = false)
    (hsf : ∀ i, ctx.send_fails i = false) :
    batch_iteration ctx t st inp =
      .processed
        { merkle := MerkleTree.new, requests := [],
          response_counter := (drain ctx.batch_size st inp).1.response_counter +
            (emit_loop ctx (drain ctx.batch_size st inp).1.merkle.values
              (ctx.make_srep t (ctx.compute_root (drain ctx.batch_size st inp).1.merkle.values))
              0 (drain ctx.batch_size st inp).1.requests).1.length,
          num_bad_requests := (drain ctx.batch_size st inp).1.num_bad_requests }
        (emit_loop ctx (drain ctx.batch_size st inp).1.merkle.values
          (ctx.make_srep t (ctx.compute_root (drain ctx.batch_size st inp).1.merkle.values))
          0 (drain ctx.batch_size st inp).1.requests).1
        (drain ctx.batch_size st inp).2.1
        (drain ctx.batch_size st inp).2.2 := by
  have hpan := (emit_loop_no_fail ctx (drain ctx.batch_size st inp).1.merkle.values
    (ctx.make_srep t (ctx.compute_root (drain ctx.batch_size st inp).1.merkle.values)) hsf
    (drain ctx.batch_size st inp).1.requests 0).1
  simp only [batch_iteration, hne, Bool.false_eq_true, if_false, hpan, MerkleTree.reset]
  rfl

/-- One unfolding step of the batch loop. -/
theorem process_batch_loop_succ (ctx : BatchContext) (flag : Nat → Bool)
    (times : Nat → Nat) (fuel k : Nat) (st : ServerState) (inp : List RecvResult) :
    process_batch_loop ctx flag times (fuel + 1) k st inp =
      if flag k then
        match batch_iteration ctx (times k) st inp with
        | .emptyBatch st1 rest => .normal st1 [] rest
        | .panicked st2 sent => .panic st2 sent
        | .processed st3 sent rest done =>
          if done then .normal st3 sent rest
          else
            match process_batch_loop ctx flag times fuel (k + 1) st3 rest with
            | .shutdown st' s' u => .shutdown st' (sent ++ s') u
            | .normal st' s' u => .normal st' (sent ++ s') u
            | .panic st' s' => .panic st' (sent ++ s')
      else .shutdown st [] inp := rfl

/-- Inverting a processed batch iteration: what was sent is exactly the
fan-out of the drained queue under the once-computed SREP, the fan-out
did not panic, the final state has been reset, and the remainder and
`done` flag come from the drain. -/
theorem batch_iteration_processed_inv (ctx : BatchContext) (t : Nat) (st : ServerState)
    (inp : List RecvResult) (st3 : ServerState) (sent : List (Nat × RtMessage))
    (rest : List RecvResult) (done : Bool)
    (hproc : batch_iteration ctx t st inp = .processed st3 sent rest done) :
    sent = (emit_loop ctx (drain ctx.batch_size st inp).1.merkle.values
        (ctx.make_srep t (ctx.compute_root (drain ctx.batch_size st inp).1.merkle.values))
        0 (drain ctx.batch_size st inp).1.requests).1 ∧
    (emit_loop ctx (drain ctx.batch_size st inp).1.merkle.values
        (ctx.make_srep t (ctx.compute_root (drain ctx.batch_size st inp).1.merkle.values))
        0 (drain ctx.batch_size st inp).1.requests).2 = false ∧
    st3.merkle.values = [] ∧ st3.requests = [] ∧
    st3.num_bad_requests = (drain ctx.batch_size st inp).1.num_bad_requests ∧
    st3.response_counter = (drain ctx.batch_size st inp).1.response_counter + sent.length ∧
    rest = (drain ctx.batch_size st inp).2.1 ∧ done = (drain ctx.batch_size st inp).2.2 := by
  simp only [batch_iteration] at hproc
  by_cases hemp : ((drain ctx.batch_size st inp).1.requests).isEmpty = true
  · rw [if_pos hemp] at hproc
    cases hproc
  · have hemp' : ((drain ctx.batch_size st inp).1.requests).isEmpty = false := by
      simpa using hemp
    rw [if_neg hemp] at hproc
    by_cases hpan : (emit_loop ctx (drain ctx.batch_size st inp).1.merkle.values
        (ctx.make_srep t (ctx.compute_root (drain ctx.batch_size st inp).1.merkle.values))
        0 (drain ctx.batch_size st inp).1.requests).2 = true
    · rw [if_pos hpan] at hproc
      cases hproc
    · have hpan' : (emit_loop ctx (drain ctx.batch_size st inp).1.merkle.values
          (ctx.make_srep t (ctx.compute_root (drain ctx.batch_size st inp).1.merkle.values))
          0 (drain ctx.batch_size st inp).1.requests).2 = false := by
        simpa using hpan
      rw [if_neg hpan] at hproc
      injection hproc with h1 h2 h3 h4
      subst h1 h2 h3 h4
      exact ⟨rfl, hpan', rfl, rfl, rfl, rfl, rfl, rfl⟩

/-! ## C1: the batching invariant -/

/-- C1: in a drain iteration started with empty queue and empty tree,
every queued request has its nonce as the Merkle leaf at the same index;
when the batch is processed, position `i` receives exactly one response —
the `i`-th one sent, addressed to that request's source — whose `INDX`
field is the little-endian encoding of `i`; and only then are the tree
and the queue reset. -/
theorem batch_alignment_and_indexing (ctx : BatchContext) (t : Nat) (st : ServerState)
    (inp : List RecvResult) (st3 : ServerState) (sent : List (Nat × RtMessage))
    (rest : List RecvResult) (done : Bool)
    (hreq : st.requests = []) (hmv : st.merkle.values = [])
    (hproc : batch_iteration ctx t st inp = .processed st3 sent rest done) :
    ((drain ctx.batch_size st inp).1.merkle.values =
      ((drain ctx.batch_size st inp).1.requests).map Prod.fst) ∧
    sent.length = (drain ctx.batch_size st inp).1.requests.length ∧
    (∀ i (h : i < sent.length) (h' : i < (drain ctx.batch_size st inp).1.requests.length),
      (sent.get ⟨i, h⟩).1 = ((drain ctx.batch_size st inp).1.requests.get ⟨i, h'⟩).2 ∧
      (sent.get ⟨i, h⟩).2.get_field Tag.INDX = some (u32_le i)) ∧
    st3.merkle.values = [] ∧ st3.requests = [] := by
  obtain ⟨pre, hpre, hreqs, hmv2, hbad, hrc, hne⟩ := drain_split ctx.batch_size st inp
  have halign : (drain ctx.batch_size st inp).1.merkle.values =
      ((drain ctx.batch_size st inp).1.requests).map Prod.fst := by
    rw [hreqs, hmv2, hreq, hmv]
    simp
  obtain ⟨hsent, hpan, hm3, hr3, _, _, _, _⟩ :=
    batch_iteration_processed_inv ctx t st inp st3 sent rest done hproc
  subst hsent
  have hlen := emit_loop_no_panic_length ctx (drain ctx.batch_size st inp).1.merkle.values
    (ctx.make_srep t (ctx.compute_root (drain ctx.batch_size st inp).1.merkle.values))
    (drain ctx.batch_size st inp).1.requests 0 hpan
  refine ⟨halign, hlen, ?_, hm3, hr3⟩
  intro i h h'
  have hget := emit_loop_get ctx (drain ctx.batch_size st inp).1.merkle.values
    (ctx.make_srep t (ctx.compute_root (drain ctx.batch_size st inp).1.merkle.values))
    (drain ctx.batch_size st inp).1.requests 0 i h h'
  constructor
  · rw [hget]
  · rw [hget]
    simp only [Nat.zero_add]
    exact make_response_get_INDX _ _ _ _

/-- A one-request input stream for the witnesses. -/
def inpW1 : List RecvResult := [RecvResult.datagram validReq 5]

/-- The batch of responses for `inpW1` under `ctx_nofail`. -/
def sentW1 : List (Nat × RtMessage) := [(5, make_response (RtMessage.new 0) [0x09] [0] 0)]

/-- The post-batch state for `inpW1`. -/
def stW1 : ServerState := ⟨⟨[]⟩, [], 1, 0⟩

set_option maxRecDepth 40000 in
/-- C1 witness: a concrete one-request batch satisfies the hypotheses,
and the conclusion holds for it. -/
theorem batch_alignment_and_indexing_witness :
    (st0.requests = [] ∧ st0.merkle.values = [] ∧
     batch_iteration ctx_nofail 3 st0 inpW1 = .processed stW1 sentW1 [] true) ∧
    (((drain ctx_nofail.batch_size st0 inpW1).1.merkle.values =
       ((drain ctx_nofail.batch_size st0 inpW1).1.requests).map Prod.fst) ∧
     sentW1.length = (drain ctx_nofail.batch_size st0 inpW1).1.requests.length ∧
     (∀ i (h : i < sentW1.length)
        (h' : i < (drain ctx_nofail.batch_size st0 inpW1).1.requests.length),
        (sentW1.get ⟨i, h⟩).1 =
          ((drain ctx_nofail.batch_size st0 inpW1).1.requests.get ⟨i, h'⟩).2 ∧
        (sentW1.get ⟨i, h⟩).2.get_field Tag.INDX = some (u32_le i)) ∧
     stW1.merkle.values = [] ∧ stW1.requests = []) := by
  have hpr : batch_iteration ctx_nofail 3 st0 inpW1 = .processed stW1 sentW1 [] true := rfl
  exact ⟨⟨rfl, rfl, hpr⟩,
    batch_alignment_and_indexing ctx_nofail 3 st0 inpW1 stW1 sentW1 [] true rfl rfl hpr⟩

/-! ## C3: one SREP per batch, shared response fields -/

/-- C3: every response of a processed batch carries the `SIG` and `SREP`
bytes of the single SREP built (at the batch's one timestamp `t`) over
the single Merkle root of the batch, and the startup certificate bytes —
so those three fields are byte-identical across the batch — while only
`PATH` and `INDX` depend on the response's position. -/
theorem single_srep_shared_fields (ctx : BatchContext) (t : Nat) (st : ServerState)
    (inp : List RecvResult) (st3 : ServerState) (sent : List (Nat × RtMessage))
    (rest : List RecvResult) (done : Bool)
    (hproc : batch_iteration ctx t st inp = .processed st3 sent rest done) :
    ∀ i (h : i < sent.length),
      (sent.get ⟨i, h⟩).2.get_field Tag.SIG =
        some (((ctx.make_srep t (ctx.compute_root
          (drain ctx.batch_size st inp).1.merkle.values)).get_field Tag.SIG).getD []) ∧
      (sent.get ⟨i, h⟩).2.get_field Tag.SREP =
        some (((ctx.make_srep t (ctx.compute_root
          (drain ctx.batch_size st inp).1.merkle.values)).get_field Tag.SREP).getD []) ∧
      (sent.get ⟨i, h⟩).2.get_field Tag.CERT = some ctx.cert_bytes ∧
      (sent.get ⟨i, h⟩).2.get_field Tag.PATH =
        some (ctx.get_paths (drain ctx.batch_size st inp).1.merkle.values i) ∧
      (sent.get ⟨i, h⟩).2.get_field Tag.INDX = some (u32_le i) := by
  obtain ⟨hsent, hpan, _, _, _, _, _, _⟩ :=
    batch_iteration_processed_inv ctx t st inp st3 sent rest done hproc
  subst hsent
  intro i h
  have h' : i < (drain ctx.batch_size st inp).1.requests.length :=
    lt_of_lt_of_le h (emit_loop_length_le _ _ _ _ 0)
  have hget := emit_loop_get ctx (drain ctx.batch_size st inp).1.merkle.values
    (ctx.make_srep t (ctx.compute_root (drain ctx.batch_size st inp).1.merkle.values))
    (drain ctx.batch_size st inp).1.requests 0 i h h'
  rw [hget]
  simp only [Nat.zero_add]
  exact ⟨make_response_get_SIG _ _ _ _, make_response_get_SREP _ _ _ _,
    make_response_get_CERT _ _ _ _, make_response_get_PATH _ _ _ _,
    make_response_get_INDX _ _ _ _⟩

/-- A two-request input stream for the witnesses. -/
def inpW2 : List RecvResult :=
  [RecvResult.datagram validReq 5, RecvResult.datagram validReq2 6]

/-- The batch of responses for `inpW2` under `ctx_nofail`. -/
def sentW2 : List (Nat × RtMessage) :=
  [(5, make_response (RtMessage.new 0) [0x09] [0] 0),
   (6, make_response (RtMessage.new 0) [0x09] [1] 1)]

/-- The post-batch state for `inpW2`. -/
def stW2 : ServerState := ⟨⟨[]⟩, [], 2, 0⟩

set_option maxRecDepth 40000 in
/-- C3 witness: a concrete two-request batch is processed, and the
conclusion holds for it. -/
theorem single_srep_shared_fields_witness :
    (batch_iteration ctx_nofail 7 st0 inpW2 = .processed stW2 sentW2 [] false) ∧
    (∀ i (h : i < sentW2.length),
      (sentW2.get ⟨i, h⟩).2.get_field Tag.SIG =
        some (((ctx_nofail.make_srep 7 (ctx_nofail.compute_root
          (drain ctx_nofail.batch_size st0 inpW2).1.merkle.values)).get_field
            Tag.SIG).getD []) ∧
      (sentW2.get ⟨i, h⟩).2.get_field Tag.SREP =
        some (((ctx_nofail.make_srep 7 (ctx_nofail.compute_root
          (drain ctx_nofail.batch_size st0 inpW2).1.merkle.values)).get_field
            Tag.SREP).getD []) ∧
      (sentW2.get ⟨i, h⟩).2.get_field Tag.CERT = some ctx_nofail.cert_bytes ∧
      (sentW2.get ⟨i, h⟩).2.get_field Tag.PATH =
        some (ctx_nofail.get_paths (drain ctx_nofail.batch_size st0 inpW2).1.merkle.values i) ∧
      (sentW2.get ⟨i, h⟩).2.get_field Tag.INDX = some (u32_le i)) := by
  have hpr : batch_iteration ctx_nofail 7 st0 inpW2 = .processed stW2 sentW2 [] false := rfl
  exact ⟨hpr, single_srep_shared_fields ctx_nofail 7 st0 inpW2 stW2 sentW2 [] false hpr⟩

/-- The state after the draining pass of a batch iteration. -/
def drained (ctx : BatchContext) (st : ServerState) (inp : List RecvResult) : ServerState :=
  (drain ctx.batch_size st inp).1

/-- The responses a batch iteration at timestamp `t` fans out. -/
def batch_sent (ctx : BatchContext) (t : Nat) (st : ServerState)
    (inp : List RecvResult) : List (Nat × RtMessage) :=
  (emit_loop ctx (drained ctx st inp).merkle.values
    (ctx.make_srep t (ctx.compute_root (drained ctx st inp).merkle.values))
    0 (drained ctx st inp).requests).1

/-- The server state a fully processed batch iteration leaves behind. -/
def batch_state (ctx : BatchContext) (t : Nat) (st : ServerState)
    (inp : List RecvResult) : ServerState :=
  { merkle := MerkleTree.new, requests := [],
    response_counter := (drained ctx st inp).response_counter +
      (batch_sent ctx t st inp).length,
    num_bad_requests := (drained ctx st inp).num_bad_requests }

/-- `batch_iteration_processed`, through the named abbreviations. -/
theorem batch_iteration_processed' (ctx : BatchContext) (t : Nat) (st : ServerState)
    (inp : List RecvResult)
    (hne : ((drain ctx.batch_size st inp).1.requests).isEmpty = false)
    (hsf : ∀ i, ctx.send_fails i = false) :
    batch_iteration ctx t st inp =
      .processed (batch_state ctx t st inp) (batch_sent ctx t st inp)
        (drain ctx.batch_size st inp).2.1 (drain ctx.batch_size st inp).2.2 :=
  batch_iteration_processed ctx t st inp hne hsf

/-! ## C7: the shutdown flag -/

/-- C7: the shutdown flag is polled at the top of every batch iteration —
if poll `k` reads `false`, the call returns `true` (shutdown) at once,
reading nothing and sending nothing; and if the flag is up at the first
poll but goes down during the drain (so every later poll reads `false`),
the in-flight batch is still fully processed — one response per queued
request — before the loop returns, with exactly the drain's leftover
input unread. -/
theorem shutdown_flag_polled_between_batches (ctx : BatchContext) (times : Nat → Nat)
    (f : Nat → Bool) (st : ServerState) (inp : List RecvResult)
    (hsf : ∀ i, ctx.send_fails i = false) :
    (∀ fuel k, f k = false →
      process_batch_loop ctx f times (fuel + 1) k st inp = .shutdown st [] inp) ∧
    (f 0 = true → (∀ n, 1 ≤ n → f n = false) → st.requests = [] →
      ((drain ctx.batch_size st inp).1.requests).isEmpty = false →
      run_server ctx f times st inp =
        (if (drain ctx.batch_size st inp).2.2 then
          LoopResult.normal (batch_state ctx (times 0) st inp)
            (batch_sent ctx (times 0) st inp) (drain ctx.batch_size st inp).2.1
        else
          LoopResult.shutdown (batch_state ctx (times 0) st inp)
            (batch_sent ctx (times 0) st inp) (drain ctx.batch_size st inp).2.1) ∧
      (batch_sent ctx (times 0) st inp).length =
        (drain ctx.batch_size st inp).1.requests.length) := by
  constructor
  · intro fuel k hfk
    rw [process_batch_loop_succ]
    simp [hfk]
  · intro hf0 hf1 hreq hne
    have hlen : (batch_sent ctx (times 0) st inp).length =
        (drain ctx.batch_size st inp).1.requests.length :=
      (emit_loop_no_fail ctx (drained ctx st inp).merkle.values
        (ctx.make_srep (times 0) (ctx.compute_root (drained ctx st inp).merkle.values)) hsf
        (drained ctx st inp).requests 0).2
    refine ⟨?_, hlen⟩
    have hbatch := batch_iteration_processed' ctx (times 0) st inp hne hsf
    cases inp with
    | nil =>
      have hd : (drain ctx.batch_size st []).1 = st := by
        cases ctx.batch_size <;> rfl
      rw [hd, hreq] at hne
      cases hne
    | cons r rest' =>
      show process_batch_loop ctx f times ((r :: rest').length + 1) 0 st (r :: rest') = _
      rw [List.length_cons, process_batch_loop_succ, hf0, if_pos rfl, hbatch]
      cases hdone : (drain ctx.batch_size st (r :: rest')).2.2 with
      | true => simp [hdone]
      | false =>
        have hinner : process_batch_loop ctx f times (rest'.length + 1) 1
            (batch_state ctx (times 0) st (r :: rest'))
            (drain ctx.batch_size st (r :: rest')).2.1 =
            .shutdown (batch_state ctx (times 0) st (r :: rest')) []
              (drain ctx.batch_size st (r :: rest')).2.1 := by
          rw [process_batch_loop_succ]
          simp [hf1 1 (Nat.le_refl 1)]
        simp [hdone, hinner]

/-- A shutdown flag that is up at the first poll and down afterwards. -/
def fW : Nat → Bool := fun n => n == 0

set_option maxRecDepth 40000 in
/-- C7 witness: with batch size 1, one valid request in flight and the
flag lowered right after the first poll, the lowered-flag poll returns
shutdown immediately, and the concrete run still processes the one-request
batch before shutting down. -/
theorem shutdown_flag_polled_between_batches_witness :
    (∀ i, ctx_bs1.send_fails i = false) ∧
    (process_batch_loop ctx_bs1 fW (fun _ => 3) (0 + 1) 5 st0 inpW1 =
      .shutdown st0 [] inpW1 ∧
    run_server ctx_bs1 fW (fun _ => 3) st0 inpW1 =
      (if (drain ctx_bs1.batch_size st0 inpW1).2.2 then
        LoopResult.normal (batch_state ctx_bs1 3 st0 inpW1)
          (batch_sent ctx_bs1 3 st0 inpW1) (drain ctx_bs1.batch_size st0 inpW1).2.1
      else
        LoopResult.shutdown (batch_state ctx_bs1 3 st0 inpW1)
          (batch_sent ctx_bs1 3 st0 inpW1) (drain ctx_bs1.batch_size st0 inpW1).2.1) ∧
    (batch_sent ctx_bs1 3 st0 inpW1).length =
      (drain ctx_bs1.batch_size st0 inpW1).1.requests.length) := by
  have hsf : ∀ i, ctx_bs1.send_fails i = false := fun _ => rfl
  have h := shutdown_flag_polled_between_batches ctx_bs1 (fun _ => 3) fW st0 inpW1 hsf
  have h2 := h.2 rfl (fun n hn => by cases n with | zero => omega | succ m => rfl) rfl rfl
  exact ⟨hsf, h.1 0 5 rfl, h2.1, h2.2⟩

/-- A list whose `isEmpty` test is `true` is nil. -/
theorem isEmpty_true_eq_nil {α : Type} {l : List α} (h : l.isEmpty = true) : l = [] := by
  cases l with
  | nil => rfl
  | cons a b => cases h

/-- Step lemma: an iteration that found no queued requests breaks the
loop normally. -/
theorem process_batch_loop_empty (ctx : BatchContext) (f : Nat → Bool)
    (times : Nat → Nat) (fuel k : Nat) (st : ServerState) (inp : List RecvResult)
    (st1 : ServerState) (rest : List RecvResult) (hf : f k = true)
    (hiter : batch_iteration ctx (times k) st inp = .emptyBatch st1 rest) :
    process_batch_loop ctx f times (fuel + 1) k st inp = .normal st1 [] rest := by
  rw [process_batch_loop_succ, hf, if_pos rfl, hiter]

/-- Step lemma: an iteration whose drain finished the socket breaks the
loop normally after its batch. -/
theorem process_batch_loop_processed_done (ctx : BatchContext) (f : Nat → Bool)
    (times : Nat → Nat) (fuel k : Nat) (st : ServerState) (inp : List RecvResult)
    (st3 : ServerState) (sent : List (Nat × RtMessage)) (rest : List RecvResult)
    (hf : f k = true)
    (hiter : batch_iteration ctx (times k) st inp = .processed st3 sent rest true) :
    process_batch_loop ctx f times (fuel + 1) k st inp = .normal st3 sent rest := by
  rw [process_batch_loop_succ, hf, if_pos rfl, hiter]
  rfl

/-- Step lemma: an iteration whose drain was cut short (without
`WouldBlock`) processes its batch and the loop continues. -/
theorem process_batch_loop_processed_cont (ctx : BatchContext) (f : Nat → Bool)
    (times : Nat → Nat) (fuel k : Nat) (st : ServerState) (inp : List RecvResult)
    (st3 : ServerState) (sent : List (Nat × RtMessage)) (rest : List RecvResult)
    (hf : f k = true)
    (hiter : batch_iteration ctx (times k) st inp = .processed st3 sent rest false) :
    process_batch_loop ctx f times (fuel + 1) k st inp =
      match process_batch_loop ctx f times fuel (k + 1) st3 rest with
      | .shutdown st' s' u => .shutdown st' (sent ++ s') u
      | .normal st' s' u => .normal st' (sent ++ s') u
      | .panic st' s' => .panic st' (sent ++ s') := by
  rw [process_batch_loop_succ, hf, if_pos rfl, hiter]
  rfl

/-- With the flag up and no failing sends, the batch loop always ends
normally (given more fuel than input, which `run_server` supplies), with
an empty request queue. -/
theorem loop_normal (ctx : BatchContext) (times : Nat → Nat)
    (hbs : 1 ≤ ctx.batch_size) (hsf : ∀ i, ctx.send_fails i = false) :
    ∀ fuel k st inp, st.requests = [] → inp.length + 1 ≤ fuel →
      ∃ st' sent rest, process_batch_loop ctx (fun _ => true) times fuel k st inp =
        .normal st' sent rest ∧ st'.requests = [] := by
  intro fuel
  induction fuel with
  | zero => intro k st inp _ hfuel; omega
  | succ fuel ih =>
    intro k st inp hreq hfuel
    by_cases hemp : ((drain ctx.batch_size st inp).1.requests).isEmpty = true
    · have hiter : batch_iteration ctx (times k) st inp =
          .emptyBatch (drain ctx.batch_size st inp).1 (drain ctx.batch_size st inp).2.1 := by
        simp [batch_iteration, hemp]
      rw [process_batch_loop_empty ctx (fun _ => true) times fuel k st inp _ _ rfl hiter]
      exact ⟨_, _, _, rfl, isEmpty_true_eq_nil hemp⟩
    · have hemp' : ((drain ctx.batch_size st inp).1.requests).isEmpty = false := by
        simpa using hemp
      have hbatch := batch_iteration_processed' ctx (times k) st inp hemp' hsf
      cases hdone : (drain ctx.batch_size st inp).2.2 with
      | true =>
        have hiter : batch_iteration ctx (times k) st inp =
            .processed (batch_state ctx (times k) st inp) (batch_sent ctx (times k) st inp)
              (drain ctx.batch_size st inp).2.1 true := by
          rw [hbatch, hdone]
        rw [process_batch_loop_processed_done ctx (fun _ => true) times fuel k st inp
          _ _ _ rfl hiter]
        exact ⟨_, _, _, rfl, rfl⟩
      | false =>
        have hiter : batch_iteration ctx (times k) st inp =
            .processed (batch_state ctx (times k) st inp) (batch_sent ctx (times k) st inp)
              (drain ctx.batch_size st inp).2.1 false := by
          rw [hbatch, hdone]
        have hinp : inp ≠ [] := by
          intro hnil
          subst hnil
          have hd : (drain ctx.batch_size st []).1 = st := by
            cases ctx.batch_size <;> rfl
          rw [hd, hreq] at hemp'
          cases hemp'
        obtain ⟨pre, hpre, _, _, _, _, hne⟩ := drain_split ctx.batch_size st inp
        have hprene : pre ≠ [] := hne (by omega) hinp
        have hrest : (drain ctx.batch_size st inp).2.1.length + 1 ≤ fuel := by
          have hlen : inp.length = pre.length + (drain ctx.batch_size st inp).2.1.length := by
            conv_lhs => rw [hpre]
            rw [List.length_append]
          have hp1 : 1 ≤ pre.length := by
            cases pre with
            | nil => cases hprene rfl
            | cons a b => simp
          omega
        obtain ⟨st', sent', rest', heq, hreq'⟩ := ih (k + 1)
          (batch_state ctx (times k) st inp) (drain ctx.batch_size st inp).2.1 rfl hrest
        rw [process_batch_loop_processed_cont ctx (fun _ => true) times fuel k st inp
          _ _ _ rfl hiter, heq]
        exact ⟨st', batch_sent ctx (times k) st inp ++ sent', rest', rfl, hreq'⟩

/-! ## C8: receive errors end the drain, never the loop -/

/-- C8: `WouldBlock` ends the drain immediately with the `done` flag set,
any other receive error ends the drain with `done` still clear (so the
loop goes on); in either case a nonempty accumulated batch is still fully
processed (one response per queued request); and with the flag up and
sends succeeding, a `process_events` call always ends normally — no
receive error terminates the server loop. -/
theorem recv_errors_end_drain_not_loop (ctx : BatchContext) (times : Nat → Nat)
    (hbs : 1 ≤ ctx.batch_size) (hsf : ∀ i, ctx.send_fails i = false) :
    (∀ n (st : ServerState) (rest : List RecvResult),
      drain (n + 1) st (.wouldBlock :: rest) = (st, rest, true)) ∧
    (∀ n (st : ServerState) (rest : List RecvResult),
      drain (n + 1) st (.otherErr :: rest) = (st, rest, false)) ∧
    (∀ t st inp, ((drain ctx.batch_size st inp).1.requests).isEmpty = false →
      batch_iteration ctx t st inp =
        .processed (batch_state ctx t st inp) (batch_sent ctx t st inp)
          (drain ctx.batch_size st inp).2.1 (drain ctx.batch_size st inp).2.2 ∧
      (batch_sent ctx t st inp).length =
        (drain ctx.batch_size st inp).1.requests.length) ∧
    (∀ st inp, st.requests = [] →
      ∃ st' sent rest,
        run_server ctx (fun _ => true) times st inp = .normal st' sent rest) := by
  refine ⟨fun n st rest => rfl, fun n st rest => rfl, ?_, ?_⟩
  · intro t st inp hne
    exact ⟨batch_iteration_processed' ctx t st inp hne hsf,
      (emit_loop_no_fail ctx (drained ctx st inp).merkle.values
        (ctx.make_srep t (ctx.compute_root (drained ctx st inp).merkle.values)) hsf
        (drained ctx st inp).requests 0).2⟩
  · intro st inp hreq
    obtain ⟨st', sent, rest, heq, _⟩ :=
      loop_normal ctx times hbs hsf (inp.length + 1) 0 st inp hreq (Nat.le_refl _)
    exact ⟨st', sent, rest, heq⟩

set_option maxRecDepth 40000 in
/-- C8 witness: the drain facts at concrete inputs, the concrete
one-request batch processed after the drain ends, and a concrete run
ending normally. -/
theorem recv_errors_end_drain_not_loop_witness :
    (1 ≤ ctx_nofail.batch_size ∧ (∀ i, ctx_nofail.send_fails i = false)) ∧
    (drain (0 + 1) st0 [RecvResult.wouldBlock] = (st0, [], true) ∧
     drain (0 + 1) st0 [RecvResult.otherErr] = (st0, [], false) ∧
     (batch_iteration ctx_nofail 3 st0 inpW1 =
        .processed (batch_state ctx_nofail 3 st0 inpW1) (batch_sent ctx_nofail 3 st0 inpW1)
          (drain ctx_nofail.batch_size st0 inpW1).2.1
          (drain ctx_nofail.batch_size st0 inpW1).2.2 ∧
      (batch_sent ctx_nofail 3 st0 inpW1).length =
        (drain ctx_nofail.batch_size st0 inpW1).1.requests.length) ∧
     (∃ st' sent rest, run_server ctx_nofail (fun _ => true) (fun _ => 3) st0 [] =
        .normal st' sent rest)) := by
  have hbs : 1 ≤ ctx_nofail.batch_size := by decide
  have hsf : ∀ i, ctx_nofail.send_fails i = false := fun _ => rfl
  have h := recv_errors_end_drain_not_loop ctx_nofail (fun _ => 3) hbs hsf
  exact ⟨⟨hbs, hsf⟩, h.1 0 st0 [], h.2.1 0 st0 [], h.2.2.1 3 st0 inpW1 rfl,
    h.2.2.2 st0 [] rfl⟩

/-- One `process_events` call on datagram-only input ends normally,
consumes a prefix of the input, answers exactly the valid requests of
that prefix (bumping `response_counter` once per response) and counts
exactly its rejected datagrams in `num_bad_requests`. -/
theorem loop_call_counts (ctx : BatchContext) (times : Nat → Nat)
    (hbs : 1 ≤ ctx.batch_size) (hsf : ∀ i, ctx.send_fails i = false) :
    ∀ fuel k st inp, (∀ r ∈ inp, r.isDatagram = true) → st.requests = [] →
      inp.length + 1 ≤ fuel →
      ∃ pre st' sent rest, inp = pre ++ rest ∧
        process_batch_loop ctx (fun _ => true) times fuel k st inp =
          .normal st' sent rest ∧
        st'.requests = [] ∧
        st'.response_counter = st.response_counter + sent.length ∧
        sent.length = (goodReqs pre).length ∧
        st'.num_bad_requests = st.num_bad_requests + badCount pre ∧
        (inp ≠ [] → pre ≠ []) := by
  intro fuel
  induction fuel with
  | zero => intro k st inp _ _ hfuel; omega
  | succ fuel ih =>
    intro k st inp hdg hreq hfuel
    obtain ⟨pre0, hpre0, hreqs, hmv, hbad, hrc, hne0⟩ := drain_split ctx.batch_size st inp
    by_cases hemp : ((drain ctx.batch_size st inp).1.requests).isEmpty = true
    · have hiter : batch_iteration ctx (times k) st inp =
          .emptyBatch (drain ctx.batch_size st inp).1 (drain ctx.batch_size st inp).2.1 := by
        simp [batch_iteration, hemp]
      have hempty := isEmpty_true_eq_nil hemp
      have hgood : goodReqs pre0 = [] := by
        rw [hempty, hreq] at hreqs
        simpa using hreqs.symm
      refine ⟨pre0, (drain ctx.batch_size st inp).1, [], (drain ctx.batch_size st inp).2.1,
        hpre0,
        process_batch_loop_empty ctx (fun _ => true) times fuel k st inp _ _ rfl hiter,
        hempty, by simpa using hrc, by simp [hgood], hbad, ?_⟩
      intro hinp
      exact hne0 (by omega) hinp
    · have hemp' : ((drain ctx.batch_size st inp).1.requests).isEmpty = false := by
        simpa using hemp
      have hbatch := batch_iteration_processed' ctx (times k) st inp hemp' hsf
      have hsentlen : (batch_sent ctx (times k) st inp).length =
          (drain ctx.batch_size st inp).1.requests.length :=
        (emit_loop_no_fail ctx (drained ctx st inp).merkle.values
          (ctx.make_srep (times k) (ctx.compute_root (drained ctx st inp).merkle.values)) hsf
          (drained ctx st inp).requests 0).2
      have hsentlen' : (batch_sent ctx (times k) st inp).length = (goodReqs pre0).length := by
        rw [hsentlen, hreqs, hreq]
        simp
      have hrc3 : (batch_state ctx (times k) st inp).response_counter =
          st.response_counter + (batch_sent ctx (times k) st inp).length := by
        show (drained ctx st inp).response_counter + _ = _
        rw [show (drained ctx st inp).response_counter = st.response_counter from hrc]
      have hbad3 : (batch_state ctx (times k) st inp).num_bad_requests =
          st.num_bad_requests + badCount pre0 := hbad
      cases hdone : (drain ctx.batch_size st inp).2.2 with
      | true =>
        have hiter : batch_iteration ctx (times k) st inp =
            .processed (batch_state ctx (times k) st inp) (batch_sent ctx (times k) st inp)
              (drain ctx.batch_size st inp).2.1 true := by
          rw [hbatch, hdone]
        refine ⟨pre0, batch_state ctx (times k) st inp, batch_sent ctx (times k) st inp,
          (drain ctx.batch_size st inp).2.1, hpre0,
          process_batch_loop_processed_done ctx (fun _ => true) times fuel k st inp
            _ _ _ rfl hiter,
          rfl, hrc3, hsentlen', hbad3, ?_⟩
        intro hinp
        exact hne0 (by omega) hinp
      | false =>
        have hiter : batch_iteration ctx (times k) st inp =
            .processed (batch_state ctx (times k) st inp) (batch_sent ctx (times k) st inp)
              (drain ctx.batch_size st inp).2.1 false := by
          rw [hbatch, hdone]
        have hinp : inp ≠ [] := by
          intro hnil
          subst hnil
          have hd : (drain ctx.batch_size st []).1 = st := by
            cases ctx.batch_size <;> rfl
          rw [hd, hreq] at hemp'
          cases hemp'
        have hprene : pre0 ≠ [] := hne0 (by omega) hinp
        have hlen0 : inp.length = pre0.length + (drain ctx.batch_size st inp).2.1.length := by
          conv_lhs => rw [hpre0]
          rw [List.length_append]
        have hp1 : 1 ≤ pre0.length := by
          cases pre0 with
          | nil => cases hprene rfl
          | cons a b => simp
        have hrest : (drain ctx.batch_size st inp).2.1.length + 1 ≤ fuel := by omega
        have hdgrest : ∀ r ∈ (drain ctx.batch_size st inp).2.1, r.isDatagram = true := by
          intro r hr
          exact hdg r (by rw [hpre0]; exact List.mem_append_right _ hr)
        obtain ⟨pre1, st', sent', rest', hsplit1, heq, hreq', hrc', hslen', hbad', _⟩ :=
          ih (k + 1) (batch_state ctx (times k) st inp)
            (drain ctx.batch_size st inp).2.1 hdgrest rfl hrest
        refine ⟨pre0 ++ pre1, st', batch_sent ctx (times k) st inp ++ sent', rest',
          ?_, ?_, hreq', ?_, ?_, ?_, ?_⟩
        · rw [hpre0, hsplit1, List.append_assoc]
        · rw [process_batch_loop_processed_cont ctx (fun _ => true) times fuel k st inp
            _ _ _ rfl hiter, heq]
        · rw [hrc', hrc3, List.length_append]
          omega
        · rw [List.length_append, goodReqs_append, List.length_append, hsentlen', hslen']
        · rw [hbad', hbad3, badCount_append]
          omega
        · intro _ hnil
          exact hprene (List.append_eq_nil.mp hnil).1

/-- One unfolding step of the repeated-call server loop. -/
theorem run_stream_succ (ctx : BatchContext) (times : Nat → Nat) (fuel : Nat)
    (st : ServerState) (inp : List RecvResult) :
    run_stream ctx times (fuel + 1) st inp =
      match run_server ctx (fun _ => true) times st inp with
      | .normal st' sent rest =>
        if rest.length < inp.length then
          ((run_stream ctx times fuel st' rest).1,
           sent ++ (run_stream ctx times fuel st' rest).2)
        else (st', sent)
      | .shutdown st' sent _ => (st', sent)
      | .panic st' sent => (st', sent) := rfl

/-- The repeated server loop on a datagram-only stream answers all its
valid requests and counts all its rejected ones. -/
theorem run_stream_counts (ctx : BatchContext) (times : Nat → Nat)
    (hbs : 1 ≤ ctx.batch_size) (hsf : ∀ i, ctx.send_fails i = false) :
    ∀ fuel st inp, (∀ r ∈ inp, r.isDatagram = true) → st.requests = [] →
      inp.length + 1 ≤ fuel →
      (run_stream ctx times fuel st inp).1.response_counter =
        st.response_counter + (goodReqs inp).length ∧
      (run_stream ctx times fuel st inp).1.num_bad_requests =
        st.num_bad_requests + badCount inp ∧
      (run_stream ctx times fuel st inp).2.length = (goodReqs inp).length := by
  intro fuel
  induction fuel with
  | zero => intro st inp _ _ hfuel; omega
  | succ fuel ih =>
    intro st inp hdg hreq hfuel
    obtain ⟨pre, st', sent, rest, hsplit, heq, hreq', hrc', hslen, hbad', hprog⟩ :=
      loop_call_counts ctx times hbs hsf (inp.length + 1) 0 st inp hdg hreq (Nat.le_refl _)
    have hlensplit : inp.length = pre.length + rest.length := by
      conv_lhs => rw [hsplit]
      rw [List.length_append]
    by_cases hlt : rest.length < inp.length
    · have hrun : run_stream ctx times (fuel + 1) st inp =
          ((run_stream ctx times fuel st' rest).1,
           sent ++ (run_stream ctx times fuel st' rest).2) := by
        rw [run_stream_succ]
        unfold run_server
        rw [heq]
        exact if_pos hlt
      have hdgrest : ∀ r ∈ rest, r.isDatagram = true := by
        intro r hr
        exact hdg r (by rw [hsplit]; exact List.mem_append_right _ hr)
      have hfuel' : rest.length + 1 ≤ fuel := by omega
      obtain ⟨ih1, ih2, ih3⟩ := ih st' rest hdgrest hreq' hfuel'
      rw [hrun]
      refine ⟨?_, ?_, ?_⟩
      · show (run_stream ctx times fuel st' rest).1.response_counter = _
        rw [ih1, hrc', hslen]
        conv_rhs => rw [hsplit]
        rw [goodReqs_append, List.length_append]
        omega
      · show (run_stream ctx times fuel st' rest).1.num_bad_requests = _
        rw [ih2, hbad']
        conv_rhs => rw [hsplit]
        rw [badCount_append]
        omega
      · show (sent ++ (run_stream ctx times fuel st' rest).2).length = _
        rw [List.length_append, ih3, hslen]
        conv_rhs => rw [hsplit]
        rw [goodReqs_append, List.length_append]
    · have hnil : inp = [] := by
        by_contra hni
        have hpne := hprog hni
        have : 1 ≤ pre.length := by
          cases pre with
          | nil => cases hpne rfl
          | cons a b => simp
        omega
      subst hnil
      have hpnil : pre = [] := (List.append_eq_nil.mp hsplit.symm).1
      have hrnil : rest = [] := (List.append_eq_nil.mp hsplit.symm).2
      subst hpnil
      subst hrnil
      have hrun : run_stream ctx times (fuel + 1) st [] = (st', sent) := by
        rw [run_stream_succ]
        unfold run_server
        rw [heq]
        exact if_neg hlt
      rw [hrun]
      have hs0 : sent.length = 0 := by simpa [goodReqs] using hslen
      refine ⟨?_, ?_, ?_⟩
      · show st'.response_counter = _
        rw [hrc', hs0]
        rfl
      · show st'.num_bad_requests = _
        rw [hbad']
      · show sent.length = _
        rw [hs0]
        rfl

/-! ## C6: the counters -/

/-- C6: processing a datagram-only stream from zero counters leaves
`response_counter` equal to the number `k` of valid requests (one
increment per emitted response — the counter always equals the number of
responses sent) and `num_bad_requests` equal to the number `m` of
rejected datagrams. -/
theorem counters_count_valid_and_invalid (ctx : BatchContext) (times : Nat → Nat)
    (inp : List RecvResult)
    (hbs : 1 ≤ ctx.batch_size) (hsf : ∀ i, ctx.send_fails i = false)
    (hdg : ∀ r ∈ inp, r.isDatagram = true) :
    (run_stream ctx times (inp.length + 1) st0 inp).1.response_counter =
      (goodReqs inp).length ∧
    (run_stream ctx times (inp.length + 1) st0 inp).1.num_bad_requests = badCount inp ∧
    (run_stream ctx times (inp.length + 1) st0 inp).2.length = (goodReqs inp).length ∧
    (run_stream ctx times (inp.length + 1) st0 inp).1.response_counter =
      (run_stream ctx times (inp.length + 1) st0 inp).2.length := by
  obtain ⟨h1, h2, h3⟩ :=
    run_stream_counts ctx times hbs hsf (inp.length + 1) st0 inp hdg rfl (Nat.le_refl _)
  have h0r : st0.response_counter = 0 := rfl
  have h0b : st0.num_bad_requests = 0 := rfl
  rw [h0r] at h1
  rw [h0b] at h2
  refine ⟨by simpa using h1, by simpa using h2, h3, by rw [h3]; simpa using h1⟩

set_option maxRecDepth 40000 in
/-- C6 witness: a concrete stream of one valid and one invalid datagram
ends with `response_counter = 1`, `num_bad_requests = 1`, one response
emitted. -/
theorem counters_count_valid_and_invalid_witness :
    (1 ≤ ctx_nofail.batch_size ∧ (∀ i, ctx_nofail.send_fails i = false) ∧
     (∀ r ∈ [RecvResult.datagram validReq 5, RecvResult.datagram [] 9],
        r.isDatagram = true)) ∧
    ((run_stream ctx_nofail (fun _ => 0)
        ([RecvResult.datagram validReq 5, RecvResult.datagram [] 9].length + 1) st0
        [RecvResult.datagram validReq 5, RecvResult.datagram [] 9]).1.response_counter =
      (goodReqs [RecvResult.datagram validReq 5, RecvResult.datagram [] 9]).length ∧
    (run_stream ctx_nofail (fun _ => 0)
        ([RecvResult.datagram validReq 5, RecvResult.datagram [] 9].length + 1) st0
        [RecvResult.datagram validReq 5, RecvResult.datagram [] 9]).1.num_bad_requests =
      badCount [RecvResult.datagram validReq 5, RecvResult.datagram [] 9] ∧
    (run_stream ctx_nofail (fun _ => 0)
        ([RecvResult.datagram validReq 5, RecvResult.datagram [] 9].length + 1) st0
        [RecvResult.datagram validReq 5, RecvResult.datagram [] 9]).2.length =
      (goodReqs [RecvResult.datagram validReq 5, RecvResult.datagram [] 9]).length ∧
    (run_stream ctx_nofail (fun _ => 0)
        ([RecvResult.datagram validReq 5, RecvResult.datagram [] 9].length + 1) st0
        [RecvResult.datagram validReq 5, RecvResult.datagram [] 9]).1.response_counter =
      (run_stream ctx_nofail (fun _ => 0)
        ([RecvResult.datagram validReq 5, RecvResult.datagram [] 9].length + 1) st0
        [RecvResult.datagram validReq 5, RecvResult.datagram [] 9]).2.length) := by
  have hbs : 1 ≤ ctx_nofail.batch_size := by decide
  have hsf : ∀ i, ctx_nofail.send_fails i = false := fun _ => rfl
  have hdg : ∀ r ∈ [RecvResult.datagram validReq 5, RecvResult.datagram [] 9],
      r.isDatagram = true := by
    decide
  exact ⟨⟨hbs, hsf, hdg⟩,
    counters_count_valid_and_invalid ctx_nofail (fun _ => 0)
      [RecvResult.datagram validReq 5, RecvResult.datagram [] 9] hbs hsf hdg⟩

end Roughenough
